import Mathlib

/-!
Verification of the ecs2k8s conversion and packaging engine.

This file gives a shallow embedding of the core of the ecs2k8s repository:
the resource-quantity mapper, the environment classifier, the container
translator, the identity resolver, the manifest assembler
(`convertTaskDefToK8s` in the converter source), the manifest writer
(`writeManifests` in `utils.go`) and the Kustomize packager
(`createBaseKustomization` / `createOverlayKustomization`).

Go machine integers (`int32`) are modelled as `Int`; pointer-typed optional
inputs (`*int32`, `*string`) are modelled as `Option`; Go maps are modelled
as association lists with insert-or-overwrite semantics; fallible functions
return `Except String`.
-/

namespace Ecs2K8s

/-! ### Kubernetes resource quantities

`k8s.io/apimachinery/pkg/api/resource.Quantity` is modelled exactly by its
value in milli-units of the base unit (millicores for CPU, 1/1000 bytes for
memory: every quantity built by this program is an integer number of
milli-units), together with its format and the cached string that
`resource.MustParse` stores (Quantity.String() returns the cached string
when one is present, and otherwise the canonical serialization). -/

inductive QFormat where
  | decimalSI
  | binarySI
deriving DecidableEq, Repr

structure Quantity where
  milliValue : Int
  format : QFormat
  cached : Option String
deriving DecidableEq, Repr

/-- Canonicalization helper: divide the mantissa by `base` while it stays an
integer and a larger suffix is available (k8s "exponent as large as
possible" canonical form). -/
def canonLoop (base : Int) : Int → List String → String
  | n, [] => toString n
  | n, [s] => toString n ++ s
  | n, s :: s2 :: rest =>
    if n ≠ 0 ∧ n % base = 0 then canonLoop base (n / base) (s2 :: rest)
    else toString n ++ s

def decimalSuffixes : List String := ["", "k", "M", "G", "T", "P", "E"]

def binarySuffixes : List String := ["", "Ki", "Mi", "Gi", "Ti", "Pi", "Ei"]

/-- Canonical serialization of a quantity (resource.Quantity.CanonicalizeBytes):
a value that is not an integer number of base units is rendered with the
`m` (milli) suffix, otherwise with the largest SI / binary suffix keeping
an integer mantissa. -/
def canonicalString (q : Quantity) : String :=
  match q.format with
  | .decimalSI =>
    if q.milliValue % 1000 ≠ 0 then toString q.milliValue ++ "m"
    else canonLoop 1000 (q.milliValue / 1000) decimalSuffixes
  | .binarySI =>
    if q.milliValue % 1000 ≠ 0 then toString q.milliValue ++ "m"
    else canonLoop 1024 (q.milliValue / 1000) binarySuffixes

/-- Quantity.String(): the cached string from MustParse if present,
otherwise the canonical serialization. -/
def Quantity.quantityString (q : Quantity) : String :=
  q.cached.getD (canonicalString q)

/-- resource.MustParse "100m" -/
def mustParse100m : Quantity := ⟨100, .decimalSI, some "100m"⟩

/-- resource.MustParse "16000m" -/
def mustParse16000m : Quantity := ⟨16000, .decimalSI, some "16000m"⟩

/-- resource.MustParse "128Mi" -/
def mustParse128Mi : Quantity := ⟨128 * 1024 * 1024 * 1000, .binarySI, some "128Mi"⟩

/-- resource.MustParse "256Gi" -/
def mustParse256Gi : Quantity := ⟨256 * 1024 * 1024 * 1024 * 1000, .binarySI, some "256Gi"⟩

/-- resource.NewMilliQuantity -/
def newMilliQuantity (v : Int) (fmt : QFormat) : Quantity := ⟨v, fmt, none⟩

/-- resource.NewQuantity (value in base units, here bytes) -/
def newQuantity (v : Int) (fmt : QFormat) : Quantity := ⟨v * 1000, fmt, none⟩

/-! ### Resource Quantity Mapper (cpuToQuantity / memoryToQuantity) -/

/-- cpuToQuantity from the converter source: nil or non-positive input
defaults to 100m, values above 16000 are capped at 16000m, otherwise ECS
CPU units map 1:1 to millicores. -/
def cpuToQuantity (cpu : Option Int) : Quantity :=
  match cpu with
  | none => mustParse100m
  | some c =>
    if c ≤ 0 then mustParse100m
    else if c > 16000 then mustParse16000m
    else newMilliQuantity c .decimalSI

/-- memoryToQuantity from the converter source: nil or non-positive input
defaults to 128Mi, values above 262144 MB are capped at 256Gi, otherwise
the input in MB becomes input*1024*1024 bytes in binary SI. -/
def memoryToQuantity (memory : Option Int) : Quantity :=
  match memory with
  | none => mustParse128Mi
  | some m =>
    if m ≤ 0 then mustParse128Mi
    else if m > 262144 then mustParse256Gi
    else newQuantity (m * 1024 * 1024) .binarySI

/-! ### Environment Classifier (isSecretEnvVar / createConfigMap / createSecret) -/

def secretPrefixes : List String :=
  ["AWS", "SECRET", "PASSWORD", "TOKEN", "KEY", "PRIVATE", "ACCESS", "AUTH", "CERT"]

/-- strings.ToUpper as applied to environment variable names: Go's Unicode
uppercase mapping coincides with `Char.toUpper` on the ASCII names this
check targets. -/
def goToUpper (s : String) : String :=
  String.mk (s.data.map Char.toUpper)

/-- strings.HasPrefix, on the underlying character sequences. -/
def goHasPrefix (s p : String) : Bool :=
  p.data.isPrefixOf s.data

/-- isSecretEnvVar: the variable name, uppercased, starts with one of the
secret prefixes (strings.HasPrefix(strings.ToUpper(name), prefix)). -/
def isSecretEnvVar (name : String) : Bool :=
  secretPrefixes.any (fun p => goHasPrefix (goToUpper name) p)

/-- ECS KeyValuePair: both fields are `*string` in the AWS SDK. -/
structure KeyValuePair where
  name : Option String
  value : Option String
deriving DecidableEq, Repr

/-- Go map insert `m[k] = v`: overwrite the existing entry or append. -/
def mapInsert {α : Type} (m : List (String × α)) (k : String) (v : α) :
    List (String × α) :=
  if m.any (fun p => p.1 = k) then
    m.map (fun p => if p.1 = k then (k, v) else p)
  else m ++ [(k, v)]

/-- One loop iteration of createConfigMap / createSecret: skip pairs with
an absent or empty name or an absent value, and insert the pair into the
accumulated map when `keep` holds of the name. -/
def envBucketStep (keep : String → Bool) (acc : List (String × String))
    (env : KeyValuePair) : List (String × String) :=
  match env.name with
  | none => acc
  | some n =>
    if n = "" then acc
    else
      match env.value with
      | none => acc
      | some v => if keep n then mapInsert acc n v else acc

/-- The Data map that createConfigMap accumulates: pairs with a present,
non-empty name and a present value whose name is not classified secret. -/
def configMapData (envVars : List KeyValuePair) : List (String × String) :=
  envVars.foldl (envBucketStep (fun n => !isSecretEnvVar n)) []

/-- The StringData map that createSecret accumulates: pairs with a present,
non-empty name and a present value whose name is classified secret. -/
def secretStringData (envVars : List KeyValuePair) : List (String × String) :=
  envVars.foldl (envBucketStep isSecretEnvVar) []

structure ConfigMap where
  name : String
  data : List (String × String)
deriving DecidableEq, Repr

structure Secret where
  name : String
  type : String
  stringData : List (String × String)
deriving DecidableEq, Repr

/-- createConfigMap: named `{container}-config`, kept only when its data map
is non-empty. -/
def createConfigMap (containerName : String) (envVars : List KeyValuePair) :
    Option ConfigMap :=
  let data := configMapData envVars
  if data.length > 0 then some ⟨containerName ++ "-config", data⟩ else none

/-- createSecret: named `{container}-secret`, type Opaque, kept only when its
string data map is non-empty. -/
def createSecret (containerName : String) (envVars : List KeyValuePair) :
    Option Secret :=
  let data := secretStringData envVars
  if data.length > 0 then some ⟨containerName ++ "-secret", "Opaque", data⟩ else none

/-! ### Container Translator (convertPorts / convertEnvVars / createService) -/

/-- ECS PortMapping: ContainerPort is `*int32`. -/
structure PortMapping where
  containerPort : Option Int
deriving DecidableEq, Repr

structure ContainerPort where
  containerPort : Int
  protocol : String
deriving DecidableEq, Repr

structure EnvVar where
  name : String
  value : String
deriving DecidableEq, Repr

structure ServicePort where
  port : Int
  targetPort : Int
  protocol : String
deriving DecidableEq, Repr

structure Service where
  name : String
  selector : List (String × String)
  ports : List ServicePort
  type : String
deriving DecidableEq, Repr

/-- convertPorts: drops nil container ports and ports outside [1, 65535];
kept ports become TCP container ports. -/
def convertPorts (portMappings : List PortMapping) : List ContainerPort :=
  portMappings.filterMap (fun pm =>
    match pm.containerPort with
    | none => none
    | some port =>
      if port < 1 ∨ port > 65535 then none
      else some ⟨port, "TCP"⟩)

/-- convertEnvVars: drops pairs with an absent or empty name or an absent
value. -/
def convertEnvVars (envs : List KeyValuePair) : List EnvVar :=
  envs.filterMap (fun env =>
    match env.name with
    | none => none
    | some n =>
      if n = "" then none
      else
        match env.value with
        | none => none
        | some v => some ⟨n, v⟩)

/-- createService: nil on an empty port-mapping list; otherwise collects the
valid ports (1–65535, nil entries dropped) and returns nil when none
survive, else a ClusterIP Service named after the container with selector
`app: containerName`. (The source also computes a `primaryPort` local that
it never uses; it is omitted here as dead code.) -/
def createService (containerName : String) (portMappings : List PortMapping) :
    Option Service :=
  if portMappings.isEmpty then none
  else
    let servicePorts := portMappings.filterMap (fun pm =>
      match pm.containerPort with
      | none => none
      | some port =>
        if port < 1 ∨ port > 65535 then none
        else some (⟨port, port, "TCP"⟩ : ServicePort))
    if servicePorts.isEmpty then none
    else some ⟨containerName, [("app", containerName)], servicePorts, "ClusterIP"⟩

/-! ### Identity Resolver (createServiceAccount) -/

structure ServiceAccount where
  name : String
  namespaceName : String
  annotations : List (String × String)
deriving DecidableEq, Repr

/-- createServiceAccount: an empty task name defaults to "default"; the task
role ARN is preferred over the execution role ARN; a non-empty ARN yields
the IRSA annotation, otherwise the ServiceAccount is returned bare. The Go
function always returns a non-nil ServiceAccount. -/
def createServiceAccount (taskDefName : String)
    (taskRoleArn executionRoleArn : Option String) : ServiceAccount :=
  let n := if taskDefName = "" then "default" else taskDefName
  let saName := n ++ "-sa"
  let roleARN :=
    match taskRoleArn with
    | some r =>
      if r ≠ "" then r
      else
        match executionRoleArn with
        | some e => if e ≠ "" then e else ""
        | none => ""
    | none =>
      match executionRoleArn with
      | some e => if e ≠ "" then e else ""
      | none => ""
  if roleARN ≠ "" then
    ⟨saName, "default", [("eks.amazonaws.com/role-arn", roleARN)]⟩
  else
    ⟨saName, "default", []⟩

/-! ### Manifest Assembler (convertTaskDefToK8s) -/

structure ResourceList where
  cpu : Quantity
  memory : Quantity
deriving DecidableEq, Repr

structure Container where
  name : String
  image : String
  ports : List ContainerPort
  env : List EnvVar
  limits : ResourceList
  requests : ResourceList
deriving DecidableEq, Repr

structure PodSpec where
  containers : List Container
  initContainers : List Container
  restartPolicy : String
  serviceAccountName : String
deriving DecidableEq, Repr

/-- ContainerResources as tracked for Helm values: quantity strings and the
plain port list. -/
structure ContainerResources where
  name : String
  cpu : String
  memory : String
  ports : List Int
deriving DecidableEq, Repr

structure K8sManifests where
  deployment : Option PodSpec
  configMaps : List ConfigMap
  secrets : List Secret
  services : List Service
  serviceAccount : Option ServiceAccount
  containers : List ContainerResources
deriving DecidableEq, Repr

/-- ECS ContainerDefinition: Name/Image are `*string`, Cpu is a plain int32,
Memory is `*int32`. -/
structure ContainerDefinition where
  name : Option String
  image : Option String
  cpu : Int
  memory : Option Int
  portMappings : List PortMapping
  environment : List KeyValuePair
deriving DecidableEq, Repr

/-- ECS TaskDefinition (the fields the converter reads, plus Family, the
task definition's own name, which the converter never reads). -/
structure TaskDefinition where
  family : Option String
  containerDefinitions : List ContainerDefinition
  taskRoleArn : Option String
  executionRoleArn : Option String
deriving DecidableEq, Repr

/-- Result of one loop iteration of convertTaskDefToK8s for one container. -/
structure ConvertedContainer where
  container : Container
  resources : ContainerResources
  configMap : Option ConfigMap
  secret : Option Secret
  service : Option Service
deriving DecidableEq, Repr

/-- One iteration of the container loop in convertTaskDefToK8s: skip (none)
when the name or image is absent or empty, otherwise convert ports, env
vars and resources and build the per-container ConfigMap/Secret/Service. -/
def convertContainer (c : ContainerDefinition) : Option ConvertedContainer :=
  match c.name with
  | none => none
  | some nm =>
    if nm = "" then none
    else
      match c.image with
      | none => none
      | some img =>
        if img = "" then none
        else
          let ports := convertPorts c.portMappings
          let envVars := convertEnvVars c.environment
          let cpuQty := cpuToQuantity (some c.cpu)
          let memoryQty := memoryToQuantity c.memory
          let cont : Container :=
            ⟨nm, img, ports, envVars, ⟨cpuQty, memoryQty⟩, ⟨cpuQty, memoryQty⟩⟩
          let res : ContainerResources :=
            ⟨nm, cpuQty.quantityString, memoryQty.quantityString,
             ports.map (·.containerPort)⟩
          let svc := if c.portMappings.isEmpty then none
                     else createService nm c.portMappings
          some ⟨cont, res, createConfigMap nm c.environment,
                createSecret nm c.environment, svc⟩

/-- convertTaskDefToK8s: errors on an empty container list, then converts
each container (skipping invalid ones), errors when none survive, and
otherwise assembles the PodSpec, the per-container ConfigMaps, Secrets and
Services, and the ServiceAccount (created with an empty task name and
always attached to the PodSpec). -/
def convertTaskDefToK8s (taskDef : TaskDefinition) :
    Except String K8sManifests :=
  if taskDef.containerDefinitions.isEmpty then
    .error "no container definitions found"
  else
    let results := taskDef.containerDefinitions.filterMap convertContainer
    if results.isEmpty then
      .error "no valid containers to convert"
    else
      let sa := createServiceAccount "" taskDef.taskRoleArn taskDef.executionRoleArn
      let podSpec : PodSpec :=
        { containers := results.map (·.container)
          initContainers := []
          restartPolicy := ""
          serviceAccountName := sa.name }
      .ok
        { deployment := some podSpec
          configMaps := results.filterMap (·.configMap)
          secrets := results.filterMap (·.secret)
          services := results.filterMap (·.service)
          serviceAccount := some sa
          containers := results.map (·.resources) }

/-! ### Manifest Writer (utils.go)

File contents are modelled as structured YAML values. `gopkg.in/yaml.v3`
marshals Go structs by their *Go field names lowercased* (it does not read
`json:` struct tags), and an embedded struct without a `yaml:",inline"`
tag — such as the corev1 types' `TypeMeta` and `ObjectMeta` — marshals as
an ordinary nested mapping under its lowercased type name; Go maps of type
`map[string]interface{}` keep the keys written below. -/

inductive YVal where
  | s (v : String)
  | i (v : Int)
  | b (v : Bool)
  | null
  | arr (elems : List YVal)
  | map (entries : List (String × YVal))

/-- Top-level keys of a YAML mapping (empty for non-mappings). -/
def YVal.topKeys : YVal → List String
  | .map entries => entries.map (·.1)
  | _ => []

/-- Value at a top-level key of a YAML mapping. -/
def YVal.get (v : YVal) (k : String) : Option YVal :=
  match v with
  | .map entries => (entries.find? (fun p => p.1 = k)).map (·.2)
  | _ => none

def yamlStringMap (m : List (String × String)) : YVal :=
  .map (m.map (fun p => (p.1, YVal.s p.2)))

/-- isValidFilename from utils.go: non-empty and free of the nine invalid
filename characters (strings.Contains with single-character patterns). -/
def invalidFilenameChars : List Char :=
  ['/', '\\', ':', '*', '?', '"', '<', '>', '|']

def isValidFilename (name : String) : Bool :=
  if name = "" then false
  else !(invalidFilenameChars.any (fun c => name.data.contains c))

/-- serializePodSpec: renders one container map — name, image, then ports /
env / resources only when present. Quantities are rendered with
Quantity.String(). (The generated ContainerPort/EnvVar never carry a port
name or an empty protocol, matching the conditionals in the source.) -/
def serializeContainer (c : Container) : YVal :=
  let base : List (String × YVal) := [("name", .s c.name), ("image", .s c.image)]
  let withPorts :=
    if c.ports.isEmpty then base
    else base ++ [("ports", YVal.arr (c.ports.map (fun p =>
      YVal.map [("containerPort", .i p.containerPort), ("protocol", .s p.protocol)])))]
  let withEnv :=
    if c.env.isEmpty then withPorts
    else withPorts ++ [("env", YVal.arr (c.env.map (fun e =>
      if e.value = "" then YVal.map [("name", .s e.name)]
      else YVal.map [("name", .s e.name), ("value", .s e.value)])))]
  YVal.map <| withEnv ++
    [("resources", YVal.map
      [("limits", yamlStringMap
        [("cpu", c.limits.cpu.quantityString), ("memory", c.limits.memory.quantityString)]),
       ("requests", yamlStringMap
        [("cpu", c.requests.cpu.quantityString), ("memory", c.requests.memory.quantityString)])])]

/-- serializePodSpec from utils.go: a map holding at most the keys
`containers`, `initContainers` and `restartPolicy`, each only when
non-empty; a nil PodSpec gives the empty map. -/
def serializePodSpec (podSpec : Option PodSpec) : List (String × YVal) :=
  match podSpec with
  | none => []
  | some ps =>
    let result : List (String × YVal) := []
    let result :=
      if ps.containers.isEmpty then result
      else result ++ [("containers", .arr (ps.containers.map serializeContainer))]
    let result :=
      if ps.initContainers.isEmpty then result
      else result ++ [("initContainers", .arr (ps.initContainers.map (fun c =>
        .map [("name", .s c.name), ("image", .s c.image)])))]
    if ps.restartPolicy = "" then result
    else result ++ [("restartPolicy", .s ps.restartPolicy)]

/-- The ObjectMeta field of the corev1 structs as yaml.v3 renders it: the Go
field name is `ObjectMeta`, so the key is `objectmeta`, and its own fields
are again lowercased Go names. Only the fields this program ever sets
(name, namespace, annotations) are modelled; the remaining always-zero
ObjectMeta fields are elided, which no claim depends on. -/
def marshalObjectMeta (name namespaceName : String)
    (annots : List (String × String)) : YVal :=
  .map [("name", .s name), ("namespace", .s namespaceName),
        ("annotations", yamlStringMap annots)]

/-- The embedded TypeMeta of the corev1 structs as yaml.v3 renders it: the
program never sets it, and without a `yaml:",inline"` tag it marshals as a
nested mapping under the key `typemeta`, with its own lowercased fields
`kind` and `apiversion` holding their zero values. -/
def marshalTypeMeta : YVal :=
  .map [("kind", .s ""), ("apiversion", .s "")]

/-- yaml.v3 marshaling of a corev1.ConfigMap: the top-level keys are the
lowercased field names `typemeta` (the never-set embedded TypeMeta, a
nested mapping), `objectmeta`, `immutable`, `data`, `binarydata`. Note the
absence of top-level `apiVersion`, `kind` and `metadata`. -/
def marshalConfigMapYaml (cm : ConfigMap) : YVal :=
  .map [("typemeta", marshalTypeMeta),
        ("objectmeta", marshalObjectMeta cm.name "" []),
        ("immutable", .null),
        ("data", yamlStringMap cm.data),
        ("binarydata", .null)]

/-- yaml.v3 marshaling of a corev1.Secret (TypeMeta never set, nested
under `typemeta`). -/
def marshalSecretYaml (s : Secret) : YVal :=
  .map [("typemeta", marshalTypeMeta),
        ("objectmeta", marshalObjectMeta s.name "" []),
        ("immutable", .null),
        ("data", .null),
        ("stringdata", yamlStringMap s.stringData),
        ("type", .s s.type)]

/-- yaml.v3 marshaling of a corev1.Service (TypeMeta never set, nested
under `typemeta`); the spec is the lowercased ServiceSpec restricted to
the fields this program sets. -/
def marshalServiceYaml (svc : Service) : YVal :=
  .map [("typemeta", marshalTypeMeta),
        ("objectmeta", marshalObjectMeta svc.name "" []),
        ("spec", .map
          [("ports", .arr (svc.ports.map (fun p =>
             .map [("protocol", .s p.protocol), ("port", .i p.port),
                   ("targetport", .i p.targetPort)]))),
           ("selector", yamlStringMap svc.selector),
           ("type", .s svc.type)]),
        ("status", .map [])]

/-- yaml.v3 marshaling of a corev1.ServiceAccount (TypeMeta never set,
nested under `typemeta`). -/
def marshalServiceAccountYaml (sa : ServiceAccount) : YVal :=
  .map [("typemeta", marshalTypeMeta),
        ("objectmeta", marshalObjectMeta sa.name sa.namespaceName sa.annotations),
        ("secrets", .null),
        ("imagepullsecrets", .null),
        ("automountserviceaccounttoken", .null)]

/-- The Deployment document writeManifests builds as an explicit Go map:
this one does carry `apiVersion`, `kind` and `metadata`. -/
def deploymentYaml (taskDefName : String) (deployment : Option PodSpec) : YVal :=
  .map [("apiVersion", .s "apps/v1"),
        ("kind", .s "Deployment"),
        ("metadata", .map [("name", .s taskDefName), ("namespace", .s "default")]),
        ("spec", .map
          [("replicas", .i 1),
           ("selector", .map [("matchLabels", yamlStringMap [("app", taskDefName)])]),
           ("template", .map
             [("metadata", .map [("labels", yamlStringMap [("app", taskDefName)])]),
              ("spec", .map (serializePodSpec deployment))])])]

/-- The `files` map writeManifests builds (Go map insertion order:
deployment, configmaps, services, secrets; a single ConfigMap/Service/
Secret gets the undecorated filename, several get an index — or, for
Services, the resource name — as suffix). -/
def buildManifestFiles (taskDefName : String) (manifests : K8sManifests) :
    List (String × YVal) :=
  let files : List (String × YVal) := []
  let files :=
    match manifests.deployment with
    | some _ =>
      mapInsert files (taskDefName ++ "-deployment.yaml")
        (deploymentYaml taskDefName manifests.deployment)
    | none => files
  let files :=
    manifests.configMaps.enum.foldl (fun fs (icm : Nat × ConfigMap) =>
      mapInsert fs
        (if manifests.configMaps.length = 1 then taskDefName ++ "-configmap.yaml"
         else taskDefName ++ "-configmap-" ++ toString icm.1 ++ ".yaml")
        (marshalConfigMapYaml icm.2)) files
  let files :=
    manifests.services.foldl (fun fs svc =>
      mapInsert fs
        (if manifests.services.length = 1 then taskDefName ++ "-service.yaml"
         else taskDefName ++ "-service-" ++ svc.name ++ ".yaml")
        (marshalServiceYaml svc)) files
  let files :=
    manifests.secrets.enum.foldl (fun fs (isec : Nat × Secret) =>
      mapInsert fs
        (if manifests.secrets.length = 1 then taskDefName ++ "-secret.yaml"
         else taskDefName ++ "-secret-" ++ toString isec.1 ++ ".yaml")
        (marshalSecretYaml isec.2)) files
  files

/-- The writer's state of the output directory as probed by writeManifests:
os.Stat existence, directory-ness, and writability (probed in the source
via a scratch `.write_test` file that is written and removed again). -/
structure OutputDir where
  path : String
  dirExists : Bool
  isDir : Bool
  writable : Bool
deriving DecidableEq, Repr

/-- The write loop over the files map: each constructed filename is
re-validated (and, since a valid filename contains no path separator,
filepath.Join keeps the resolved path inside the output directory, so the
path-containment check cannot fire after it). Returns the files written
and the error, if any. -/
def writeLoop : List (String × YVal) → List (String × YVal) × Option String
  | [] => ([], none)
  | f :: rest =>
    if !(isValidFilename f.1) then
      ([], some ("constructed filename " ++ f.1 ++ " contains invalid characters"))
    else
      let r := writeLoop rest
      (f :: r.1, r.2)

/-- writeManifests from utils.go: validates the output directory (non-empty
path, exists, is a directory, writable) and the task name (non-empty,
valid as a filename) before building or writing anything, then writes the
files map. The result is the list of files written (name and content) and
the error, if any; every precondition failure yields an empty write list. -/
def writeManifests (out : OutputDir) (taskDefName : String)
    (manifests : K8sManifests) : List (String × YVal) × Option String :=
  if out.path = "" then
    ([], some "output directory path cannot be empty")
  else if !out.dirExists then
    ([], some ("output directory " ++ out.path ++ " does not exist"))
  else if !out.isDir then
    ([], some ("output path " ++ out.path ++ " is not a directory"))
  else if !out.writable then
    ([], some ("output directory " ++ out.path ++ " is not writable"))
  else if taskDefName = "" then
    ([], some "task definition name cannot be empty")
  else if !(isValidFilename taskDefName) then
    ([], some ("invalid task definition name for filename: " ++ taskDefName))
  else
    writeLoop (buildManifestFiles taskDefName manifests)

/-- The directory contents after performing a sequence of file writes: the
head of the list is written first, and a later write (in the tail) to the
same filename overwrites it. -/
def applyWrites : List (String × YVal) → String → Option YVal
  | [], _ => none
  | w :: rest, f =>
    match applyWrites rest f with
    | some v => some v
    | none => if f = w.1 then some w.2 else none

/-- Keys of an as-association-list Go map are pairwise distinct. -/
def nodupKeys (m : List (String × YVal)) : Prop :=
  (m.map Prod.fst).Nodup

/-! ### Kustomize Packager (createBaseKustomization / createOverlayKustomization) -/

/-- ContainerConfig as carried in a TaskDefInfo. -/
structure ContainerConfig where
  name : String
  image : String
  cpu : String
  memory : String
  ports : List Int
  envVars : List (String × String)
deriving DecidableEq, Repr

/-- TaskDefInfo: one task definition with its converted manifests. -/
structure TaskDefInfo where
  name : String
  image : String
  containers : List ContainerConfig
  manifests : K8sManifests
  executionRoleArn : String
  taskRoleArn : String

/-- The kustomization.yaml structure (this Go struct carries yaml tags, so
its fields marshal under the tag names). A patch entry `{target: {kind:
Deployment, name: N}, path: P}` is modelled as the pair `(N, P)`. -/
structure KustomizeConfig where
  apiVersion : String
  kind : String
  metadataName : String
  bases : List String
  resources : List String
  patches : List (String × String)
  namespaceName : String
  commonLabels : List (String × String)

/-- generateBaseDeployment: an explicit Go map with apiVersion / kind /
metadata (name and app label, no namespace) / spec wrapping
serializePodSpec. -/
def generateBaseDeployment (taskName : String) (info : TaskDefInfo) : YVal :=
  .map [("apiVersion", .s "apps/v1"),
        ("kind", .s "Deployment"),
        ("metadata", .map
          [("name", .s taskName),
           ("labels", yamlStringMap [("app", taskName)])]),
        ("spec", .map
          [("replicas", .i 1),
           ("selector", .map [("matchLabels", yamlStringMap [("app", taskName)])]),
           ("template", .map
             [("metadata", .map [("labels", yamlStringMap [("app", taskName)])]),
              ("spec", .map (serializePodSpec info.manifests.deployment))])])]

/-- The base files createBaseKustomization writes for one task, as paths
relative to base/: the deployment, every Service (named by the service),
the ConfigMaps and Secrets (indexed), and the ServiceAccount when present.
File writes are modelled as always succeeding. -/
def baseTaskFiles (info : TaskDefInfo) : List (String × YVal) :=
  [("deployments/" ++ info.name ++ "-deployment.yaml",
    generateBaseDeployment info.name info)]
  ++ info.manifests.services.map (fun svc =>
      ("services/" ++ svc.name ++ "-service.yaml", marshalServiceYaml svc))
  ++ info.manifests.configMaps.enum.map (fun (icm : Nat × ConfigMap) =>
      ("configmaps/" ++ info.name ++ "-configmap-" ++ toString icm.1 ++ ".yaml",
       marshalConfigMapYaml icm.2))
  ++ info.manifests.secrets.enum.map (fun (isec : Nat × Secret) =>
      ("secrets/" ++ info.name ++ "-secret-" ++ toString isec.1 ++ ".yaml",
       marshalSecretYaml isec.2))
  ++ (match info.manifests.serviceAccount with
      | some sa => [("serviceaccounts/" ++ info.name ++ "-serviceaccount.yaml",
                     marshalServiceAccountYaml sa)]
      | none => [])

/-- The resource paths createBaseKustomization appends to the base
kustomization for one task. For Services the source appends the path only
for index 0 (`if i == 0`), although it writes a file for every Service. -/
def baseTaskResources (info : TaskDefInfo) : List String :=
  ["deployments/" ++ info.name ++ "-deployment.yaml"]
  ++ (match info.manifests.services with
      | [] => []
      | svc :: _ => ["services/" ++ svc.name ++ "-service.yaml"])
  ++ info.manifests.configMaps.enum.map (fun (icm : Nat × ConfigMap) =>
      "configmaps/" ++ info.name ++ "-configmap-" ++ toString icm.1 ++ ".yaml")
  ++ info.manifests.secrets.enum.map (fun (isec : Nat × Secret) =>
      "secrets/" ++ info.name ++ "-secret-" ++ toString isec.1 ++ ".yaml")
  ++ (match info.manifests.serviceAccount with
      | some _ => ["serviceaccounts/" ++ info.name ++ "-serviceaccount.yaml"]
      | none => [])

/-- createBaseKustomization: the per-task base manifests together with the
base kustomization.yaml (resources list plus the common label
`managed-by: ecs2k8s`), which is then marshaled to base/kustomization.yaml. -/
def createBaseKustomization (taskDefInfos : List TaskDefInfo) :
    List (String × YVal) × KustomizeConfig :=
  (taskDefInfos.flatMap baseTaskFiles,
   { apiVersion := "kustomize.config.k8s.io/v1beta1"
     kind := "Kustomization"
     metadataName := "base"
     bases := []
     resources := taskDefInfos.flatMap baseTaskResources
     patches := []
     namespaceName := ""
     commonLabels := [("managed-by", "ecs2k8s")] })

/-- The namespace patch written per deployment into an overlay's patches/
directory (raw fmt.Sprintf text in the source). -/
def namespacePatchContent (taskName namespaceName overlayName : String) : String :=
  "apiVersion: apps/v1\nkind: Deployment\nmetadata:\n  name: " ++ taskName ++
  "\n  namespace: " ++ namespaceName ++
  "\nspec:\n  template:\n    metadata:\n      labels:\n        environment: " ++
  overlayName ++ "\n"

/-- Output of createOverlayKustomization for one overlay. -/
structure OverlayOutput where
  overlayName : String
  namespaceName : String
  patchFiles : List (String × String)
  kustomization : KustomizeConfig

/-- createOverlayKustomization: one namespace-and-label patch file per task
definition plus a kustomization with bases ../../base, the overlay's
namespace, a patch entry per deployment and the environment common label. -/
def createOverlayKustomization (overlayName namespaceName : String)
    (taskDefInfos : List TaskDefInfo) : OverlayOutput :=
  { overlayName := overlayName
    namespaceName := namespaceName
    patchFiles := taskDefInfos.map (fun info =>
      ("patches/" ++ info.name ++ "-namespace-patch.yaml",
       namespacePatchContent info.name namespaceName overlayName))
    kustomization :=
      { apiVersion := "kustomize.config.k8s.io/v1beta1"
        kind := "Kustomization"
        metadataName := overlayName
        bases := ["../../base"]
        resources := []
        patches := taskDefInfos.map (fun info =>
          (info.name, "patches/" ++ info.name ++ "-namespace-patch.yaml"))
        namespaceName := namespaceName
        commonLabels := [("environment", overlayName)] } }

/-- The overlay name → namespace table of createKustomizeStructure (a Go
map with three fixed entries). -/
def overlayNamespaces : List (String × String) :=
  [("dev", "development"), ("staging", "staging"), ("prod", "production")]

/-- createKustomizeStructure, restricted to its pure output: the base files
and kustomization, and the three overlays. -/
def createKustomizeStructure (taskDefInfos : List TaskDefInfo) :
    (List (String × YVal) × KustomizeConfig) × List OverlayOutput :=
  (createBaseKustomization taskDefInfos,
   overlayNamespaces.map (fun p =>
     createOverlayKustomization p.1 p.2 taskDefInfos))

/-! ### Concrete inputs used by witnesses -/

/-- The spec's end-to-end scenario: task definition `webapp` with one
container `web`, image nginx:1.21, cpu 512, memory 256, port 80 and the
two environment variables. -/
def webappTaskDef : TaskDefinition :=
  { family := some "webapp"
    containerDefinitions :=
      [{ name := some "web", image := some "nginx:1.21", cpu := 512,
         memory := some 256, portMappings := [⟨some 80⟩],
         environment := [⟨some "LOG_LEVEL", some "info"⟩,
                         ⟨some "AWS_ACCESS_KEY_ID", some "xxx"⟩] }]
    taskRoleArn := none
    executionRoleArn := none }

/-- The webapp task definition with a task-level IAM role ARN attached. -/
def webappRoleTaskDef : TaskDefinition :=
  { webappTaskDef with
      taskRoleArn := some "arn:aws:iam::123456789012:role/app-role" }

/-- Unwrap a conversion result, with the empty aggregate as fallback. -/
def okOr (e : Except String K8sManifests) : K8sManifests :=
  match e with
  | .ok m => m
  | .error _ => ⟨none, [], [], [], none, []⟩

/-- An output directory that passes every writer precondition. -/
def goodDir : OutputDir := ⟨"./output", true, true, true⟩

/-- TaskDefInfo for the webapp-with-role task, as the packagers consume it. -/
def webappTaskDefInfo : TaskDefInfo :=
  { name := "webapp"
    image := "nginx:1.21"
    containers := []
    manifests := okOr (convertTaskDefToK8s webappRoleTaskDef)
    executionRoleArn := ""
    taskRoleArn := "arn:aws:iam::123456789012:role/app-role" }

/-- A task definition with two containers that both expose a port, so its
conversion carries two Services. -/
def twoContainerTaskDef : TaskDefinition :=
  { family := some "multi"
    containerDefinitions :=
      [{ name := some "web1", image := some "img1", cpu := 256,
         memory := some 128, portMappings := [⟨some 8080⟩], environment := [] },
       { name := some "web2", image := some "img2", cpu := 256,
         memory := some 128, portMappings := [⟨some 9090⟩], environment := [] }]
    taskRoleArn := none
    executionRoleArn := none }

/-- TaskDefInfo for the two-container task. -/
def multiTaskDefInfo : TaskDefInfo :=
  { name := "multi"
    image := "img1"
    containers := []
    manifests := okOr (convertTaskDefToK8s twoContainerTaskDef)
    executionRoleArn := ""
    taskRoleArn := "" }

/-- Top-level keys of the named file among a writer's output files. -/
def fileTopKeys (files : List (String × YVal)) (name : String) : List String :=
  ((files.find? (fun p => p.1 = name)).map (fun p => p.2.topKeys)).getD []

/-! ## Claims -/

/-! ### Helper lemmas on Go-map insertion and the classifier fold -/

theorem keys_mapInsert_of_mem {α : Type} (m : List (String × α)) (k : String)
    (v : α) (h : m.any (fun p => p.1 = k)) :
    (mapInsert m k v).map Prod.fst = m.map Prod.fst := by
  unfold mapInsert
  rw [if_pos h, List.map_map]
  apply List.map_congr_left
  intro p _
  by_cases hp : p.1 = k
  · simp [hp]
  · simp [hp]

theorem keys_mapInsert_of_not_mem {α : Type} (m : List (String × α))
    (k : String) (v : α) (h : ¬ m.any (fun p => p.1 = k)) :
    (mapInsert m k v).map Prod.fst = m.map Prod.fst ++ [k] := by
  unfold mapInsert
  rw [if_neg h, List.map_append]
  rfl

theorem mem_keys_mapInsert {α : Type} (m : List (String × α)) (k : String)
    (v : α) (n : String) :
    n ∈ (mapInsert m k v).map Prod.fst ↔ n = k ∨ n ∈ m.map Prod.fst := by
  by_cases h : m.any (fun p => p.1 = k)
  · rw [keys_mapInsert_of_mem m k v h]
    have hk : k ∈ m.map Prod.fst := by
      rcases List.any_eq_true.mp h with ⟨p, hp, hpk⟩
      exact List.mem_map.mpr ⟨p, hp, of_decide_eq_true hpk⟩
    constructor
    · exact Or.inr
    · rintro (rfl | hn)
      · exact hk
      · exact hn
  · rw [keys_mapInsert_of_not_mem m k v h]
    simp [or_comm]

theorem mem_keys_envBucketStep (keep : String → Bool)
    (acc : List (String × String)) (e : KeyValuePair) (n : String) :
    n ∈ (envBucketStep keep acc e).map Prod.fst ↔
      n ∈ acc.map Prod.fst ∨
        (n ≠ "" ∧ keep n = true ∧ ∃ v, e = KeyValuePair.mk (some n) (some v)) := by
  rcases e with ⟨en, ev⟩
  cases en with
  | none => simp [envBucketStep]
  | some nm =>
    by_cases hnm : nm = ""
    · subst hnm
      simp only [envBucketStep, if_pos rfl]
      constructor
      · exact Or.inl
      · rintro (hn | ⟨hne, _, v, hv⟩)
        · exact hn
        · cases hv; exact absurd rfl hne
    · cases ev with
      | none =>
        simp only [envBucketStep, if_neg hnm]
        constructor
        · exact Or.inl
        · rintro (hn | ⟨_, _, v, hv⟩)
          · exact hn
          · cases hv
      | some v =>
        simp only [envBucketStep, if_neg hnm]
        by_cases hk : keep nm
        · rw [if_pos hk, mem_keys_mapInsert]
          constructor
          · rintro (rfl | hn)
            · exact Or.inr ⟨hnm, hk, v, rfl⟩
            · exact Or.inl hn
          · rintro (hn | ⟨_, _, w, hw⟩)
            · exact Or.inr hn
            · cases hw; exact Or.inl rfl
        · rw [if_neg hk]
          constructor
          · exact Or.inl
          · rintro (hn | ⟨_, hkn, w, hw⟩)
            · exact hn
            · cases hw; exact absurd hkn hk

theorem mem_keys_envBucketFold (keep : String → Bool)
    (envVars : List KeyValuePair) (acc : List (String × String)) (n : String) :
    n ∈ (envVars.foldl (envBucketStep keep) acc).map Prod.fst ↔
      n ∈ acc.map Prod.fst ∨
        (n ≠ "" ∧ keep n = true ∧
          ∃ v, KeyValuePair.mk (some n) (some v) ∈ envVars) := by
  induction envVars generalizing acc with
  | nil => simp
  | cons e rest ih =>
    rw [List.foldl_cons, ih, mem_keys_envBucketStep]
    constructor
    · rintro ((hn | ⟨hne, hk, v, hv⟩) | ⟨hne, hk, v, hv⟩)
      · exact Or.inl hn
      · exact Or.inr ⟨hne, hk, v, by rw [hv]; exact List.mem_cons_self _ _⟩
      · exact Or.inr ⟨hne, hk, v, List.mem_cons_of_mem _ hv⟩
    · rintro (hn | ⟨hne, hk, v, hv⟩)
      · exact Or.inl (Or.inl hn)
      · rcases List.mem_cons.mp hv with hv | hv
        · exact Or.inl (Or.inr ⟨hne, hk, v, hv.symm⟩)
        · exact Or.inr ⟨hne, hk, v, hv⟩

/-- C1: Resource Quantity Mapper — cpuToQuantity and memoryToQuantity are
total; a missing or non-positive CPU gives the quantity 100m, a CPU above
16000 is capped at the quantity 16000m, and otherwise the input maps 1:1
to millicores (cpuToQuantity(512) renders as "512m", cpuToQuantity(20000)
as "16000m"); a missing or non-positive memory gives 128Mi, memory above
262144 is capped at 256Gi, and otherwise the quantity is input*1024*1024
bytes in binary SI (memoryToQuantity(256) renders as "256Mi"). -/
theorem c1_resource_quantity_mapper (cpu memory : Option Int) :
    ((cpu = none ∨ ∃ c, cpu = some c ∧ c ≤ 0) →
      (cpuToQuantity cpu).milliValue = 100 ∧
      (cpuToQuantity cpu).quantityString = "100m") ∧
    (∀ c, cpu = some c → c > 16000 →
      (cpuToQuantity cpu).milliValue = 16000 ∧
      (cpuToQuantity cpu).quantityString = "16000m") ∧
    (∀ c, cpu = some c → 0 < c → c ≤ 16000 →
      (cpuToQuantity cpu).milliValue = c) ∧
    ((memory = none ∨ ∃ m, memory = some m ∧ m ≤ 0) →
      (memoryToQuantity memory).milliValue = 128 * 1024 * 1024 * 1000 ∧
      (memoryToQuantity memory).quantityString = "128Mi") ∧
    (∀ m, memory = some m → m > 262144 →
      (memoryToQuantity memory).milliValue = 256 * 1024 * 1024 * 1024 * 1000 ∧
      (memoryToQuantity memory).quantityString = "256Gi") ∧
    (∀ m, memory = some m → 0 < m → m ≤ 262144 →
      (memoryToQuantity memory).milliValue = m * 1024 * 1024 * 1000 ∧
      (memoryToQuantity memory).format = QFormat.binarySI) ∧
    (cpuToQuantity (some 512)).quantityString = "512m" ∧
    (cpuToQuantity (some 20000)).quantityString = "16000m" ∧
    (memoryToQuantity (some 256)).quantityString = "256Mi" := by
  refine ⟨?_, ?_, ?_, ?_, ?_, ?_, ?_, ?_, ?_⟩
  · rintro (rfl | ⟨c, rfl, hc⟩)
    · exact ⟨rfl, rfl⟩
    · simp [cpuToQuantity, if_pos hc]
      exact ⟨rfl, rfl⟩
  · rintro c rfl hc
    simp only [cpuToQuantity]
    rw [if_neg (by omega), if_pos hc]
    exact ⟨rfl, rfl⟩
  · rintro c rfl hpos hle
    simp only [cpuToQuantity]
    rw [if_neg (by omega), if_neg (by omega)]
    rfl
  · rintro (rfl | ⟨m, rfl, hm⟩)
    · exact ⟨rfl, rfl⟩
    · simp only [memoryToQuantity]
      rw [if_pos hm]
      exact ⟨rfl, rfl⟩
  · rintro m rfl hm
    simp only [memoryToQuantity]
    rw [if_neg (by omega), if_pos hm]
    exact ⟨rfl, rfl⟩
  · rintro m rfl hpos hle
    simp only [memoryToQuantity]
    rw [if_neg (by omega), if_neg (by omega)]
    exact ⟨by simp [newQuantity], rfl⟩
  · decide
  · decide
  · decide

/-- C1 witness: the mapper theorem applied at the spec's test inputs. -/
theorem c1_resource_quantity_mapper_witness :
    (cpuToQuantity (some 0)).quantityString = "100m" ∧
    (cpuToQuantity (some 20000)).quantityString = "16000m" ∧
    (cpuToQuantity (some 512)).milliValue = 512 ∧
    (memoryToQuantity none).quantityString = "128Mi" ∧
    (memoryToQuantity (some 300000)).quantityString = "256Gi" ∧
    (memoryToQuantity (some 256)).milliValue = 256 * 1024 * 1024 * 1000 :=
  ⟨((c1_resource_quantity_mapper (some 0) none).1
      (Or.inr ⟨0, rfl, by decide⟩)).2,
   ((c1_resource_quantity_mapper (some 20000) none).2.1 20000 rfl (by decide)).2,
   (c1_resource_quantity_mapper (some 512) none).2.2.1 512 rfl (by decide) (by decide),
   ((c1_resource_quantity_mapper none none).2.2.2.1 (Or.inl rfl)).2,
   ((c1_resource_quantity_mapper none (some 300000)).2.2.2.2.1 300000 rfl (by decide)).2,
   ((c1_resource_quantity_mapper none (some 256)).2.2.2.2.2.1 256 rfl
      (by decide) (by decide)).1⟩

/-- C2: Environment Classifier — a kept variable lands in the container's
Secret bucket iff its name, uppercased, starts with one of the nine secret
prefixes, and in the ConfigMap bucket otherwise; pairs with an absent or
empty name or an absent value are excluded from both; the buckets are
disjoint. -/
theorem c2_environment_classifier (env : List KeyValuePair) (c n : String) :
    ((∃ s, createSecret c env = some s ∧ n ∈ s.stringData.map Prod.fst) ↔
      (n ≠ "" ∧ isSecretEnvVar n = true ∧
        ∃ v, KeyValuePair.mk (some n) (some v) ∈ env)) ∧
    ((∃ cm, createConfigMap c env = some cm ∧ n ∈ cm.data.map Prod.fst) ↔
      (n ≠ "" ∧ isSecretEnvVar n = false ∧
        ∃ v, KeyValuePair.mk (some n) (some v) ∈ env)) ∧
    (isSecretEnvVar n = true ↔
      ∃ p ∈ secretPrefixes, goHasPrefix (goToUpper n) p = true) ∧
    (¬((∃ s, createSecret c env = some s ∧ n ∈ s.stringData.map Prod.fst) ∧
       (∃ cm, createConfigMap c env = some cm ∧ n ∈ cm.data.map Prod.fst))) := by
  have hsec : (∃ s, createSecret c env = some s ∧ n ∈ s.stringData.map Prod.fst) ↔
      n ∈ (secretStringData env).map Prod.fst := by
    constructor
    · rintro ⟨s, hs, hn⟩
      unfold createSecret at hs
      by_cases h : (secretStringData env).length > 0
      · rw [if_pos h] at hs
        cases hs
        exact hn
      · rw [if_neg h] at hs
        cases hs
    · intro hn
      have hne : (secretStringData env).length > 0 := by
        cases hd : secretStringData env with
        | nil => rw [hd] at hn; simp at hn
        | cons a t => simp [hd]
      exact ⟨⟨c ++ "-secret", "Opaque", secretStringData env⟩,
        by unfold createSecret; rw [if_pos hne], hn⟩
  have hcfg : (∃ cm, createConfigMap c env = some cm ∧ n ∈ cm.data.map Prod.fst) ↔
      n ∈ (configMapData env).map Prod.fst := by
    constructor
    · rintro ⟨cm, hcm, hn⟩
      unfold createConfigMap at hcm
      by_cases h : (configMapData env).length > 0
      · rw [if_pos h] at hcm
        cases hcm
        exact hn
      · rw [if_neg h] at hcm
        cases hcm
    · intro hn
      have hne : (configMapData env).length > 0 := by
        cases hd : configMapData env with
        | nil => rw [hd] at hn; simp at hn
        | cons a t => simp [hd]
      exact ⟨⟨c ++ "-config", configMapData env⟩,
        by unfold createConfigMap; rw [if_pos hne], hn⟩
  have hsd : n ∈ (secretStringData env).map Prod.fst ↔
      (n ≠ "" ∧ isSecretEnvVar n = true ∧
        ∃ v, KeyValuePair.mk (some n) (some v) ∈ env) := by
    rw [secretStringData, mem_keys_envBucketFold]
    simp
  have hcd : n ∈ (configMapData env).map Prod.fst ↔
      (n ≠ "" ∧ isSecretEnvVar n = false ∧
        ∃ v, KeyValuePair.mk (some n) (some v) ∈ env) := by
    rw [configMapData, mem_keys_envBucketFold]
    simp
  refine ⟨hsec.trans hsd, hcfg.trans hcd, ?_, ?_⟩
  · simp [isSecretEnvVar, List.any_eq_true]
  · rintro ⟨hs, hc⟩
    have h1 := (hsec.trans hsd).mp hs
    have h2 := (hcfg.trans hcd).mp hc
    rw [h1.2.1] at h2
    exact absurd h2.2.1 (by simp)

/-- C2 witness: the classifier theorem applied to the spec's end-to-end
environment (LOG_LEVEL to the config bucket, AWS_ACCESS_KEY_ID to the
secret bucket). -/
theorem c2_environment_classifier_witness :
    ((∃ s, createSecret "web"
        [⟨some "LOG_LEVEL", some "info"⟩, ⟨some "AWS_ACCESS_KEY_ID", some "xxx"⟩]
        = some s ∧ "AWS_ACCESS_KEY_ID" ∈ s.stringData.map Prod.fst)) ∧
    ((∃ cm, createConfigMap "web"
        [⟨some "LOG_LEVEL", some "info"⟩, ⟨some "AWS_ACCESS_KEY_ID", some "xxx"⟩]
        = some cm ∧ "LOG_LEVEL" ∈ cm.data.map Prod.fst)) :=
  ⟨(c2_environment_classifier
      [⟨some "LOG_LEVEL", some "info"⟩, ⟨some "AWS_ACCESS_KEY_ID", some "xxx"⟩]
      "web" "AWS_ACCESS_KEY_ID").1.mpr
      ⟨by decide, by decide, "xxx", by simp⟩,
   (c2_environment_classifier
      [⟨some "LOG_LEVEL", some "info"⟩, ⟨some "AWS_ACCESS_KEY_ID", some "xxx"⟩]
      "web" "LOG_LEVEL").2.1.mpr
      ⟨by decide, by decide, "info", by simp⟩⟩

theorem convertContainer_eq_none (cd : ContainerDefinition) :
    convertContainer cd = none ↔
      (cd.name = none ∨ cd.name = some "" ∨
       cd.image = none ∨ cd.image = some "") := by
  rcases cd with ⟨nm, img, cpu, mem, pms, env⟩
  cases nm with
  | none => simp [convertContainer]
  | some n =>
    by_cases hn : n = ""
    · subst hn
      simp [convertContainer]
    · cases img with
      | none => simp [convertContainer, hn]
      | some im =>
        by_cases hi : im = ""
        · subst hi
          simp [convertContainer, hn]
        · simp [convertContainer, hn, hi]

/-- C5: Manifest Assembler error conditions — convertTaskDefToK8s returns
an error iff the task definition has zero container entries or every
container is skipped for a missing (absent or empty) name or image; the
two cases carry the no-containers and no-valid-containers errors
respectively, and in every other case conversion succeeds. -/
theorem c5_manifest_assembler_errors (t : TaskDefinition) :
    ((∃ e, convertTaskDefToK8s t = .error e) ↔
      (t.containerDefinitions = [] ∨
        ∀ cd ∈ t.containerDefinitions,
          cd.name = none ∨ cd.name = some "" ∨
          cd.image = none ∨ cd.image = some "")) ∧
    (t.containerDefinitions = [] →
      convertTaskDefToK8s t = .error "no container definitions found") ∧
    (t.containerDefinitions ≠ [] →
      (∀ cd ∈ t.containerDefinitions,
        cd.name = none ∨ cd.name = some "" ∨
        cd.image = none ∨ cd.image = some "") →
      convertTaskDefToK8s t = .error "no valid containers to convert") ∧
    ((∃ cd ∈ t.containerDefinitions,
        ¬(cd.name = none ∨ cd.name = some "" ∨
          cd.image = none ∨ cd.image = some "")) →
      ∃ m, convertTaskDefToK8s t = .ok m) := by
  have hskip : ∀ cd, convertContainer cd = none ↔
      (cd.name = none ∨ cd.name = some "" ∨
       cd.image = none ∨ cd.image = some "") := convertContainer_eq_none
  by_cases hempty : t.containerDefinitions = []
  · refine ⟨?_, ?_, ?_, ?_⟩
    · constructor
      · intro _; exact Or.inl hempty
      · intro _
        exact ⟨"no container definitions found",
          by unfold convertTaskDefToK8s; rw [if_pos (by simp [hempty])]⟩
    · intro _
      unfold convertTaskDefToK8s
      rw [if_pos (by simp [hempty])]
    · intro h; exact absurd hempty h
    · rintro ⟨cd, hcd, _⟩
      rw [hempty] at hcd
      simp at hcd
  · have hne : ¬ t.containerDefinitions.isEmpty := by
      simp [List.isEmpty_iff, hempty]
    by_cases hall : ∀ cd ∈ t.containerDefinitions, convertContainer cd = none
    · have hres : t.containerDefinitions.filterMap convertContainer = [] :=
        List.filterMap_eq_nil_iff.mpr hall
      have herr : convertTaskDefToK8s t = .error "no valid containers to convert" := by
        unfold convertTaskDefToK8s
        rw [if_neg hne]
        simp only [hres]
        rfl
      refine ⟨?_, ?_, ?_, ?_⟩
      · constructor
        · intro _
          exact Or.inr (fun cd h => (hskip cd).mp (hall cd h))
        · intro _; exact ⟨_, herr⟩
      · intro h; exact absurd h hempty
      · intro _ _; exact herr
      · rintro ⟨cd, hcd, hval⟩
        exact absurd ((hskip cd).mp (hall cd hcd)) hval
    · have hres : t.containerDefinitions.filterMap convertContainer ≠ [] := by
        intro h
        exact hall (List.filterMap_eq_nil_iff.mp h)
      have hok : ∃ m, convertTaskDefToK8s t = .ok m := by
        unfold convertTaskDefToK8s
        rw [if_neg hne]
        simp only [List.isEmpty_iff]
        rw [if_neg hres]
        exact ⟨_, rfl⟩
      refine ⟨?_, ?_, ?_, ?_⟩
      · constructor
        · rintro ⟨e, he⟩
          rcases hok with ⟨m, hm⟩
          rw [hm] at he
          cases he
        · rintro (h | h)
          · exact absurd h hempty
          · exact absurd (fun cd hc => (hskip cd).mpr (h cd hc)) hall
      · intro h; exact absurd h hempty
      · intro _ h
        exact absurd (fun cd hc => (hskip cd).mpr (h cd hc)) hall
      · intro _; exact hok

/-- C5 witness: the spec's end-to-end webapp task definition (one valid
container) converts successfully; the assembler theorem applied there. -/
theorem c5_manifest_assembler_errors_witness :
    ∃ m, convertTaskDefToK8s
      { family := some "webapp"
        containerDefinitions :=
          [{ name := some "web", image := some "nginx:1.21", cpu := 512,
             memory := some 256, portMappings := [⟨some 80⟩],
             environment := [⟨some "LOG_LEVEL", some "info"⟩,
                             ⟨some "AWS_ACCESS_KEY_ID", some "xxx"⟩] }]
        taskRoleArn := none
        executionRoleArn := none } = .ok m :=
  (c5_manifest_assembler_errors _).2.2.2
    ⟨{ name := some "web", image := some "nginx:1.21", cpu := 512,
       memory := some 256, portMappings := [⟨some 80⟩],
       environment := [⟨some "LOG_LEVEL", some "info"⟩,
                       ⟨some "AWS_ACCESS_KEY_ID", some "xxx"⟩] },
     by simp, by simp⟩

/-! ### Inversion lemmas for the assembler -/

theorem convertContainer_eq_some {cd : ContainerDefinition}
    {r : ConvertedContainer} (h : convertContainer cd = some r) :
    ∃ nm img, cd.name = some nm ∧ nm ≠ "" ∧ cd.image = some img ∧ img ≠ "" ∧
      r = { container := ⟨nm, img, convertPorts cd.portMappings,
              convertEnvVars cd.environment,
              ⟨cpuToQuantity (some cd.cpu), memoryToQuantity cd.memory⟩,
              ⟨cpuToQuantity (some cd.cpu), memoryToQuantity cd.memory⟩⟩
            resources := ⟨nm, (cpuToQuantity (some cd.cpu)).quantityString,
              (memoryToQuantity cd.memory).quantityString,
              (convertPorts cd.portMappings).map (·.containerPort)⟩
            configMap := createConfigMap nm cd.environment
            secret := createSecret nm cd.environment
            service := if cd.portMappings.isEmpty then none
                       else createService nm cd.portMappings } := by
  rcases cd with ⟨nm?, img?, cpu, mem, pms, env⟩
  cases nm? with
  | none => simp [convertContainer] at h
  | some nm =>
    by_cases hn : nm = ""
    · subst hn
      simp [convertContainer] at h
    · cases img? with
      | none => simp [convertContainer, hn] at h
      | some img =>
        by_cases hi : img = ""
        · subst hi
          simp [convertContainer, hn] at h
        · refine ⟨nm, img, rfl, hn, rfl, hi, ?_⟩
          simp only [convertContainer, if_neg hn, if_neg hi,
            Option.some.injEq] at h
          exact h.symm

theorem convertTaskDefToK8s_ok_eq {t : TaskDefinition} {m : K8sManifests}
    (h : convertTaskDefToK8s t = .ok m) :
    m = { deployment := some
            ⟨(t.containerDefinitions.filterMap convertContainer).map (·.container),
             [], "",
             (createServiceAccount "" t.taskRoleArn t.executionRoleArn).name⟩
          configMaps := (t.containerDefinitions.filterMap convertContainer).filterMap
            (·.configMap)
          secrets := (t.containerDefinitions.filterMap convertContainer).filterMap
            (·.secret)
          services := (t.containerDefinitions.filterMap convertContainer).filterMap
            (·.service)
          serviceAccount := some (createServiceAccount "" t.taskRoleArn t.executionRoleArn)
          containers := (t.containerDefinitions.filterMap convertContainer).map
            (·.resources) } := by
  unfold convertTaskDefToK8s at h
  by_cases h1 : t.containerDefinitions.isEmpty
  · rw [if_pos h1] at h
    cases h
  · rw [if_neg h1] at h
    by_cases h2 : (t.containerDefinitions.filterMap convertContainer).isEmpty
    · simp only [h2, if_true] at h
      cases h
    · simp only [h2, if_false, Bool.false_eq_true] at h
      cases h
      rfl

theorem convertPorts_mem_bounds {pms : List PortMapping} {p : ContainerPort}
    (h : p ∈ convertPorts pms) :
    1 ≤ p.containerPort ∧ p.containerPort ≤ 65535 := by
  rcases List.mem_filterMap.mp h with ⟨pm, _, hpm⟩
  split at hpm
  · cases hpm
  · split at hpm
    · cases hpm
    · cases hpm
      rename_i port _ hb
      push_neg at hb
      dsimp only
      omega

theorem createService_eq_some {nm : String} {pms : List PortMapping}
    {svc : Service} (h : createService nm pms = some svc) :
    svc.name = nm ∧
    (∀ sp ∈ svc.ports, 1 ≤ sp.port ∧ sp.port ≤ 65535) ∧
    (∃ pm ∈ pms, ∃ p, pm.containerPort = some p ∧ 1 ≤ p ∧ p ≤ 65535) := by
  unfold createService at h
  by_cases h1 : pms.isEmpty
  · rw [if_pos h1] at h
    cases h
  · rw [if_neg h1] at h
    set sps := pms.filterMap (fun pm =>
      match pm.containerPort with
      | none => none
      | some port =>
        if port < 1 ∨ port > 65535 then none
        else some (⟨port, port, "TCP"⟩ : ServicePort)) with hsps
    by_cases h2 : sps.isEmpty
    · rw [if_pos h2] at h
      cases h
    · rw [if_neg h2] at h
      cases h
      have hmem : ∀ sp ∈ sps, 1 ≤ sp.port ∧ sp.port ≤ 65535 := by
        intro sp hsp
        rcases List.mem_filterMap.mp (hsps ▸ hsp) with ⟨pm, _, hpm⟩
        split at hpm
        · cases hpm
        · split at hpm
          · cases hpm
          · cases hpm
            rename_i port _ hb
            push_neg at hb
            dsimp only
            omega
      refine ⟨rfl, hmem, ?_⟩
      rcases List.exists_mem_of_ne_nil sps (by simpa [List.isEmpty_iff] using h2)
        with ⟨sp, hsp⟩
      rcases List.mem_filterMap.mp (hsps ▸ hsp) with ⟨pm, hpmm, hpm⟩
      split at hpm
      · cases hpm
      · split at hpm
        · cases hpm
        · rename_i port hc hb
          push_neg at hb
          exact ⟨pm, hpmm, port, hc, by omega, by omega⟩

/-- C3: K8sManifests presence invariant and port filtering — in every
successfully converted task definition, no container port list, tracked
resource port list or Service port list holds a port outside [1, 65535];
every ConfigMap and Secret in the aggregate has a non-empty data map; and
every Service traces back to a container definition of the task that has
at least one valid port mapping. -/
theorem c3_manifest_invariants (t : TaskDefinition) (m : K8sManifests)
    (h : convertTaskDefToK8s t = .ok m) :
    (∀ ps, m.deployment = some ps → ∀ c ∈ ps.containers, ∀ p ∈ c.ports,
      1 ≤ p.containerPort ∧ p.containerPort ≤ 65535) ∧
    (∀ res ∈ m.containers, ∀ p ∈ res.ports, 1 ≤ p ∧ p ≤ 65535) ∧
    (∀ svc ∈ m.services, ∀ sp ∈ svc.ports, 1 ≤ sp.port ∧ sp.port ≤ 65535) ∧
    (∀ cm ∈ m.configMaps, cm.data ≠ []) ∧
    (∀ s ∈ m.secrets, s.stringData ≠ []) ∧
    (∀ svc ∈ m.services, ∃ cd ∈ t.containerDefinitions,
      cd.name = some svc.name ∧
      ∃ pm ∈ cd.portMappings, ∃ p, pm.containerPort = some p ∧
        1 ≤ p ∧ p ≤ 65535) := by
  have hm := convertTaskDefToK8s_ok_eq h
  subst hm
  refine ⟨?_, ?_, ?_, ?_, ?_, ?_⟩
  · rintro ps hps c hc p hp
    cases hps
    rcases List.mem_map.mp hc with ⟨r, hr, hrc⟩
    rcases List.mem_filterMap.mp hr with ⟨cd, _, hcd⟩
    rcases convertContainer_eq_some hcd with ⟨nm, img, _, _, _, _, rfl⟩
    rw [← hrc] at hp
    exact convertPorts_mem_bounds hp
  · rintro res hres p hp
    rcases List.mem_map.mp hres with ⟨r, hr, hrr⟩
    rcases List.mem_filterMap.mp hr with ⟨cd, _, hcd⟩
    rcases convertContainer_eq_some hcd with ⟨nm, img, _, _, _, _, rfl⟩
    rw [← hrr] at hp
    rcases List.mem_map.mp hp with ⟨cp, hcp, hcpp⟩
    have := convertPorts_mem_bounds hcp
    omega
  · rintro svc hsvc sp hsp
    rcases List.mem_filterMap.mp hsvc with ⟨r, hr, hrs⟩
    rcases List.mem_filterMap.mp hr with ⟨cd, _, hcd⟩
    rcases convertContainer_eq_some hcd with ⟨nm, img, _, _, _, _, rfl⟩
    simp only at hrs
    by_cases hp : cd.portMappings.isEmpty
    · rw [if_pos hp] at hrs
      cases hrs
    · rw [if_neg hp] at hrs
      exact (createService_eq_some hrs).2.1 sp hsp
  · rintro cm hcm
    rcases List.mem_filterMap.mp hcm with ⟨r, hr, hrc⟩
    rcases List.mem_filterMap.mp hr with ⟨cd, _, hcd⟩
    rcases convertContainer_eq_some hcd with ⟨nm, img, _, _, _, _, rfl⟩
    simp only [createConfigMap] at hrc
    by_cases hd : (configMapData cd.environment).length > 0
    · rw [if_pos hd] at hrc
      cases hrc
      intro hnil
      dsimp only at hnil
      rw [hnil] at hd
      simp at hd
    · rw [if_neg hd] at hrc
      cases hrc
  · rintro s hs
    rcases List.mem_filterMap.mp hs with ⟨r, hr, hrs⟩
    rcases List.mem_filterMap.mp hr with ⟨cd, _, hcd⟩
    rcases convertContainer_eq_some hcd with ⟨nm, img, _, _, _, _, rfl⟩
    simp only [createSecret] at hrs
    by_cases hd : (secretStringData cd.environment).length > 0
    · rw [if_pos hd] at hrs
      cases hrs
      intro hnil
      dsimp only at hnil
      rw [hnil] at hd
      simp at hd
    · rw [if_neg hd] at hrs
      cases hrs
  · rintro svc hsvc
    rcases List.mem_filterMap.mp hsvc with ⟨r, hr, hrs⟩
    rcases List.mem_filterMap.mp hr with ⟨cd, hcdm, hcd⟩
    rcases convertContainer_eq_some hcd with ⟨nm, img, hnm, _, _, _, rfl⟩
    simp only at hrs
    by_cases hp : cd.portMappings.isEmpty
    · rw [if_pos hp] at hrs
      cases hrs
    · rw [if_neg hp] at hrs
      rcases createService_eq_some hrs with ⟨hname, _, pm, hpm, p, hp', hb1, hb2⟩
      exact ⟨cd, hcdm, by rw [hnm, hname], pm, hpm, p, hp', hb1, hb2⟩

/-- C3 witness: the invariants instantiated on the converted webapp task. -/
theorem c3_manifest_invariants_witness :
    (∀ svc ∈ (okOr (convertTaskDefToK8s webappTaskDef)).services,
      ∀ sp ∈ svc.ports, 1 ≤ sp.port ∧ sp.port ≤ 65535) ∧
    (∀ cm ∈ (okOr (convertTaskDefToK8s webappTaskDef)).configMaps,
      cm.data ≠ []) := by
  have h : convertTaskDefToK8s webappTaskDef =
      .ok (okOr (convertTaskDefToK8s webappTaskDef)) := rfl
  have hc := c3_manifest_invariants webappTaskDef _ h
  exact ⟨hc.2.2.1, hc.2.2.2.1⟩

/-- C4 counterexample: the claim says the produced ServiceAccount is named
`{task}-sa`; on the webapp task definition (task name "webapp") carrying a
task role ARN, the assembler passes an empty task name to the resolver, so
the ServiceAccount that reaches the aggregate is named "default-sa", not
"webapp-sa". -/
theorem c4_identity_resolver_counterexample :
    webappRoleTaskDef.family = some "webapp" ∧
    (okOr (convertTaskDefToK8s webappRoleTaskDef)).serviceAccount.map (·.name)
      = some "default-sa" ∧
    (okOr (convertTaskDefToK8s webappRoleTaskDef)).serviceAccount.map (·.name)
      ≠ some ("webapp" ++ "-sa") :=
  ⟨rfl, rfl, by decide⟩

/-- C4 (amended): Identity Resolver — the task role ARN takes precedence
over the execution role ARN; a non-empty ARN yields the ServiceAccount
with the IRSA annotation `eks.amazonaws.com/role-arn` mapped to that ARN,
and with no ARN a bare ServiceAccount is still produced; but because the
assembler calls the resolver with an empty task name, the ServiceAccount
is always named "default-sa" (the resolver's default), not `{task}-sa`; it
is always attached to the Pod spec via serviceAccountName. -/
theorem c4_identity_resolver (tr ex : Option String) (t : TaskDefinition)
    (m : K8sManifests) :
    ((createServiceAccount "" tr ex).name = "default-sa") ∧
    (∀ r, tr = some r → r ≠ "" →
      (createServiceAccount "" tr ex).annotations =
        [("eks.amazonaws.com/role-arn", r)]) ∧
    ((tr = none ∨ tr = some "") → ∀ e, ex = some e → e ≠ "" →
      (createServiceAccount "" tr ex).annotations =
        [("eks.amazonaws.com/role-arn", e)]) ∧
    ((tr = none ∨ tr = some "") → (ex = none ∨ ex = some "") →
      (createServiceAccount "" tr ex).annotations = []) ∧
    (convertTaskDefToK8s t = .ok m →
      m.serviceAccount =
        some (createServiceAccount "" t.taskRoleArn t.executionRoleArn) ∧
      ∀ ps, m.deployment = some ps →
        ps.serviceAccountName =
          (createServiceAccount "" t.taskRoleArn t.executionRoleArn).name) := by
  refine ⟨?_, ?_, ?_, ?_, ?_⟩
  · unfold createServiceAccount
    cases tr with
    | none =>
      cases ex with
      | none => rfl
      | some e => by_cases he : e = "" <;> simp [he]
    | some r =>
      by_cases hr : r = ""
      · cases ex with
        | none => simp [hr]
        | some e => by_cases he : e = "" <;> simp [hr, he]
      · simp [hr]
  · rintro r rfl hr
    unfold createServiceAccount
    simp [hr]
  · rintro (rfl | rfl) e rfl he <;>
      · unfold createServiceAccount
        simp [he]
  · rintro (rfl | rfl) (rfl | rfl) <;> rfl
  · intro h
    have hm := convertTaskDefToK8s_ok_eq h
    subst hm
    refine ⟨rfl, ?_⟩
    rintro ps hps
    cases hps
    rfl

/-- C4 witness: the amended resolver behavior at concrete ARNs, and the
attachment on the converted webapp-with-role task. -/
theorem c4_identity_resolver_witness :
    (createServiceAccount "" (some "arn:task") (some "arn:exec")).name
      = "default-sa" ∧
    (createServiceAccount "" (some "arn:task") (some "arn:exec")).annotations
      = [("eks.amazonaws.com/role-arn", "arn:task")] ∧
    (createServiceAccount "" none (some "arn:exec")).annotations
      = [("eks.amazonaws.com/role-arn", "arn:exec")] ∧
    (createServiceAccount "" none none).annotations = [] ∧
    (okOr (convertTaskDefToK8s webappRoleTaskDef)).serviceAccount =
      some (createServiceAccount "" webappRoleTaskDef.taskRoleArn
        webappRoleTaskDef.executionRoleArn) :=
  ⟨(c4_identity_resolver (some "arn:task") (some "arn:exec") webappTaskDef
      (okOr (convertTaskDefToK8s webappTaskDef))).1,
   (c4_identity_resolver (some "arn:task") (some "arn:exec") webappTaskDef
      (okOr (convertTaskDefToK8s webappTaskDef))).2.1 "arn:task" rfl (by decide),
   (c4_identity_resolver none (some "arn:exec") webappTaskDef
      (okOr (convertTaskDefToK8s webappTaskDef))).2.2.1 (Or.inl rfl)
      "arn:exec" rfl (by decide),
   (c4_identity_resolver none none webappTaskDef
      (okOr (convertTaskDefToK8s webappTaskDef))).2.2.2.1 (Or.inl rfl) (Or.inl rfl),
   ((c4_identity_resolver none none webappRoleTaskDef
      (okOr (convertTaskDefToK8s webappRoleTaskDef))).2.2.2.2 rfl).1⟩

/-- C6: Manifest Writer preconditions — whenever the output directory does
not exist, is not a directory or is not writable, or the task name is
empty or holds one of the nine invalid filename characters, writeManifests
fails with an error and writes no manifest file; in particular any task
name containing "../" is rejected before any file is written. -/
theorem c6_writer_preconditions (out : OutputDir) (name : String)
    (m : K8sManifests) :
    ((out.path = "" ∨ out.dirExists = false ∨ out.isDir = false ∨
      out.writable = false ∨ name = "" ∨ isValidFilename name = false) →
      ∃ e, writeManifests out name m = ([], some e)) ∧
    (∀ pre suf, isValidFilename (pre ++ "../" ++ suf) = false) ∧
    (∀ pre suf, ∃ e, writeManifests out (pre ++ "../" ++ suf) m = ([], some e)) := by
  have hdots : ∀ pre suf : String, isValidFilename (pre ++ "../" ++ suf) = false := by
    intro pre suf
    have hmem : '/' ∈ (pre ++ "../" ++ suf).data := by
      simp [String.data_append]
    unfold isValidFilename
    by_cases hemp : pre ++ "../" ++ suf = ""
    · rw [if_pos hemp]
    · rw [if_neg hemp]
      simp only [Bool.not_eq_false']
      refine List.any_eq_true.mpr ⟨'/', by simp [invalidFilenameChars], ?_⟩
      simp [hmem]
  have hfail : ∀ nm : String,
      (out.path = "" ∨ out.dirExists = false ∨ out.isDir = false ∨
        out.writable = false ∨ nm = "" ∨ isValidFilename nm = false) →
      ∃ e, writeManifests out nm m = ([], some e) := by
    intro nm hcond
    unfold writeManifests
    by_cases h1 : out.path = ""
    · exact ⟨_, by rw [if_pos h1]⟩
    · rw [if_neg h1]
      by_cases h2 : out.dirExists
      · rw [if_neg (by simp [h2])]
        by_cases h3 : out.isDir
        · rw [if_neg (by simp [h3])]
          by_cases h4 : out.writable
          · rw [if_neg (by simp [h4])]
            by_cases h5 : nm = ""
            · exact ⟨_, by rw [if_pos h5]⟩
            · rw [if_neg h5]
              by_cases h6 : isValidFilename nm
              · rcases hcond with hc | hc | hc | hc | hc | hc
                · exact absurd hc h1
                · rw [h2] at hc; cases hc
                · rw [h3] at hc; cases hc
                · rw [h4] at hc; cases hc
                · exact absurd hc h5
                · rw [h6] at hc; cases hc
              · exact ⟨_, by rw [if_pos (by simp [h6])]⟩
          · exact ⟨_, by rw [if_pos (by simp [h4])]⟩
        · exact ⟨_, by rw [if_pos (by simp [h3])]⟩
      · exact ⟨_, by rw [if_pos (by simp [h2])]⟩
  exact ⟨hfail name, hdots,
    fun pre suf => hfail (pre ++ "../" ++ suf)
      (Or.inr (Or.inr (Or.inr (Or.inr (Or.inr (hdots pre suf))))))⟩

/-- C6 witness: the precondition theorem applied to a non-writable
directory and to a traversal-attempting task name. -/
theorem c6_writer_preconditions_witness :
    (∃ e, writeManifests ⟨"./out", true, true, false⟩ "webapp"
      (okOr (convertTaskDefToK8s webappTaskDef)) = ([], some e)) ∧
    isValidFilename ("" ++ "../" ++ "etc/passwd") = false ∧
    (∃ e, writeManifests ⟨"./out", true, true, true⟩ ("" ++ "../" ++ "etc/passwd")
      (okOr (convertTaskDefToK8s webappTaskDef)) = ([], some e)) :=
  ⟨(c6_writer_preconditions ⟨"./out", true, true, false⟩ "webapp"
      (okOr (convertTaskDefToK8s webappTaskDef))).1
      (Or.inr (Or.inr (Or.inr (Or.inl rfl)))),
   (c6_writer_preconditions ⟨"./out", true, true, true⟩ "webapp"
      (okOr (convertTaskDefToK8s webappTaskDef))).2.1 "" "etc/passwd",
   (c6_writer_preconditions ⟨"./out", true, true, true⟩ "webapp"
      (okOr (convertTaskDefToK8s webappTaskDef))).2.2 "" "etc/passwd"⟩

/-- C10: the raw Manifest Writer's output is independent of the
ServiceAccount field (it emits no ServiceAccount manifest); the serialized
pod spec holds at most the keys containers / initContainers /
restartPolicy, hence never serviceAccountName; and the ServiceAccount
reaches file output only through the Kustomize packager, whose base
directory does contain a serviceaccounts/ file whenever the aggregate
carries a ServiceAccount. -/
theorem c10_serviceaccount_only_via_kustomize (out : OutputDir)
    (name : String) (m : K8sManifests) (sa1 sa2 : Option ServiceAccount) :
    (writeManifests out name { m with serviceAccount := sa1 } =
      writeManifests out name { m with serviceAccount := sa2 }) ∧
    (∀ ps, (serializePodSpec ps).map Prod.fst ⊆
      ["containers", "initContainers", "restartPolicy"]) ∧
    (∀ ps, "serviceAccountName" ∉ (serializePodSpec ps).map Prod.fst) ∧
    (∀ infos : List TaskDefInfo, ∀ info ∈ infos, ∀ sa,
      info.manifests.serviceAccount = some sa →
      ("serviceaccounts/" ++ info.name ++ "-serviceaccount.yaml",
        marshalServiceAccountYaml sa) ∈ (createBaseKustomization infos).1) := by
  have hsub : ∀ ps, (serializePodSpec ps).map Prod.fst ⊆
      ["containers", "initContainers", "restartPolicy"] := by
    intro ps
    cases ps with
    | none => simp [serializePodSpec]
    | some p =>
      by_cases h1 : p.containers.isEmpty <;>
        by_cases h2 : p.initContainers.isEmpty <;>
          by_cases h3 : p.restartPolicy = "" <;>
            simp [serializePodSpec, h1, h2, h3, List.subset_def]
  refine ⟨rfl, hsub, ?_, ?_⟩
  · intro ps hmem
    have := hsub ps hmem
    simp at this
  · intro infos info hinfo sa hsa
    refine List.mem_flatMap.mpr ⟨info, hinfo, ?_⟩
    unfold baseTaskFiles
    rw [hsa]
    simp

/-- C10 witness: the theorem applied to the converted webapp task (whose
aggregate carries a ServiceAccount) packaged through Kustomize. -/
theorem c10_serviceaccount_only_via_kustomize_witness :
    ("serviceaccounts/" ++ "webapp" ++ "-serviceaccount.yaml",
      marshalServiceAccountYaml
        (createServiceAccount "" webappRoleTaskDef.taskRoleArn
          webappRoleTaskDef.executionRoleArn))
      ∈ (createBaseKustomization [webappTaskDefInfo]).1 :=
  (c10_serviceaccount_only_via_kustomize goodDir "webapp"
      (okOr (convertTaskDefToK8s webappTaskDef)) none none).2.2.2
    [webappTaskDefInfo] webappTaskDefInfo (List.mem_singleton.mpr rfl)
    (createServiceAccount "" webappRoleTaskDef.taskRoleArn
      webappRoleTaskDef.executionRoleArn) rfl

/-- C7: the claim asserts every emitted manifest file carries apiVersion,
kind and metadata. The Deployment file does, but the ConfigMap, Secret and
Service files are the raw corev1 structs marshaled by gopkg.in/yaml.v3,
which ignores their json tags, lowercases Go field names and nests the
never-set embedded TypeMeta under a `typemeta` key: on the spec's own
webapp scenario those three files come out with top-level keys
`typemeta:` (holding empty `kind`/`apiversion`), `objectmeta:`, … — no
top-level `apiVersion`, `kind` or `metadata` at all — contradicting both
the claim and the repository's documented output. -/
theorem c7_emitted_yaml_contract_violated :
    (writeManifests goodDir "webapp" (okOr (convertTaskDefToK8s webappTaskDef))).2
      = none ∧
    (writeManifests goodDir "webapp"
      (okOr (convertTaskDefToK8s webappTaskDef))).1.map Prod.fst =
      ["webapp-deployment.yaml", "webapp-configmap.yaml",
       "webapp-service.yaml", "webapp-secret.yaml"] ∧
    fileTopKeys (writeManifests goodDir "webapp"
        (okOr (convertTaskDefToK8s webappTaskDef))).1 "webapp-configmap.yaml" =
      ["typemeta", "objectmeta", "immutable", "data", "binarydata"] ∧
    ("apiVersion" ∉ fileTopKeys (writeManifests goodDir "webapp"
        (okOr (convertTaskDefToK8s webappTaskDef))).1 "webapp-configmap.yaml" ∧
     "kind" ∉ fileTopKeys (writeManifests goodDir "webapp"
        (okOr (convertTaskDefToK8s webappTaskDef))).1 "webapp-configmap.yaml" ∧
     "metadata" ∉ fileTopKeys (writeManifests goodDir "webapp"
        (okOr (convertTaskDefToK8s webappTaskDef))).1 "webapp-configmap.yaml") ∧
    ("apiVersion" ∉ fileTopKeys (writeManifests goodDir "webapp"
        (okOr (convertTaskDefToK8s webappTaskDef))).1 "webapp-secret.yaml" ∧
     "kind" ∉ fileTopKeys (writeManifests goodDir "webapp"
        (okOr (convertTaskDefToK8s webappTaskDef))).1 "webapp-secret.yaml" ∧
     "metadata" ∉ fileTopKeys (writeManifests goodDir "webapp"
        (okOr (convertTaskDefToK8s webappTaskDef))).1 "webapp-secret.yaml") ∧
    ("apiVersion" ∉ fileTopKeys (writeManifests goodDir "webapp"
        (okOr (convertTaskDefToK8s webappTaskDef))).1 "webapp-service.yaml" ∧
     "kind" ∉ fileTopKeys (writeManifests goodDir "webapp"
        (okOr (convertTaskDefToK8s webappTaskDef))).1 "webapp-service.yaml" ∧
     "metadata" ∉ fileTopKeys (writeManifests goodDir "webapp"
        (okOr (convertTaskDefToK8s webappTaskDef))).1 "webapp-service.yaml") ∧
    ("apiVersion" ∈ fileTopKeys (writeManifests goodDir "webapp"
        (okOr (convertTaskDefToK8s webappTaskDef))).1 "webapp-deployment.yaml" ∧
     "kind" ∈ fileTopKeys (writeManifests goodDir "webapp"
        (okOr (convertTaskDefToK8s webappTaskDef))).1 "webapp-deployment.yaml" ∧
     "metadata" ∈ fileTopKeys (writeManifests goodDir "webapp"
        (okOr (convertTaskDefToK8s webappTaskDef))).1 "webapp-deployment.yaml") := by
  refine ⟨rfl, rfl, rfl, ?_, ?_, ?_, ?_⟩ <;> decide

/-! ### Determinism of the write loop -/

theorem not_mem_keys_of_not_any {α : Type} {m : List (String × α)} {k : String}
    (h : ¬ m.any (fun p => p.1 = k)) : k ∉ m.map Prod.fst := by
  intro hk
  rcases List.mem_map.mp hk with ⟨p, hp, hpk⟩
  exact h (List.any_eq_true.mpr ⟨p, hp, decide_eq_true hpk⟩)

theorem nodupKeys_mapInsert {m : List (String × YVal)} {k : String} {v : YVal}
    (h : nodupKeys m) : nodupKeys (mapInsert m k v) := by
  by_cases hm : m.any (fun p => p.1 = k)
  · unfold nodupKeys
    rw [keys_mapInsert_of_mem m k v hm]
    exact h
  · unfold nodupKeys
    rw [keys_mapInsert_of_not_mem m k v hm]
    exact List.Nodup.append h (List.nodup_singleton k)
      (by
        intro a ha hb
        rw [List.mem_singleton.mp hb] at ha
        exact not_mem_keys_of_not_any hm ha)

theorem nodupKeys_foldl_mapInsert {β : Type} (key : β → String)
    (val : β → YVal) (l : List β) :
    ∀ init, nodupKeys init →
      nodupKeys (l.foldl (fun fs b => mapInsert fs (key b) (val b)) init) := by
  induction l with
  | nil => intro init h; exact h
  | cons b rest ih =>
    intro init h
    exact ih (mapInsert init (key b) (val b)) (nodupKeys_mapInsert h)

theorem nodupKeys_buildManifestFiles (taskDefName : String)
    (manifests : K8sManifests) :
    nodupKeys (buildManifestFiles taskDefName manifests) := by
  simp only [buildManifestFiles]
  have hnil : nodupKeys [] := List.nodup_nil
  have h1 : nodupKeys
      (match manifests.deployment with
       | some _ =>
         mapInsert [] (taskDefName ++ "-deployment.yaml")
           (deploymentYaml taskDefName manifests.deployment)
       | none => []) := by
    cases manifests.deployment with
    | none => exact hnil
    | some ps => exact nodupKeys_mapInsert hnil
  exact nodupKeys_foldl_mapInsert _ _ manifests.secrets.enum _
    (nodupKeys_foldl_mapInsert _ _ manifests.services _
      (nodupKeys_foldl_mapInsert _ _ manifests.configMaps.enum _ h1))

theorem applyWrites_eq_none_iff (l : List (String × YVal)) (f : String) :
    applyWrites l f = none ↔ f ∉ l.map Prod.fst := by
  induction l with
  | nil => simp [applyWrites]
  | cons w rest ih =>
    simp only [applyWrites, List.map_cons, List.mem_cons]
    cases h : applyWrites rest f with
    | some v =>
      have hf : f ∈ List.map Prod.fst rest := by
        by_contra hnf
        rw [ih.mpr hnf] at h
        cases h
      simp [hf]
    | none =>
      by_cases hw : f = w.1
      · simp [hw]
      · have hnf : f ∉ List.map Prod.fst rest := ih.mp h
        simp [hw, hnf]

theorem applyWrites_eq_some_iff {l : List (String × YVal)} (h : nodupKeys l)
    (f : String) (v : YVal) :
    applyWrites l f = some v ↔ (f, v) ∈ l := by
  induction l with
  | nil => simp [applyWrites]
  | cons w rest ih =>
    obtain ⟨w1, w2⟩ := w
    unfold nodupKeys at h
    simp only [List.map_cons, List.nodup_cons] at h
    have hw1 : w1 ∉ rest.map Prod.fst := h.1
    have hrest : nodupKeys rest := h.2
    simp only [applyWrites, List.mem_cons]
    constructor
    · intro hsv
      cases ha : applyWrites rest f with
      | some v' =>
        rw [ha] at hsv
        injection hsv with hv
        subst hv
        exact Or.inr ((ih hrest).mp ha)
      | none =>
        rw [ha] at hsv
        by_cases hwf : f = w1
        · rw [if_pos hwf] at hsv
          injection hsv with hv
          exact Or.inl (by rw [hwf, ← hv])
        · rw [if_neg hwf] at hsv
          cases hsv
    · rintro (heq | hmem)
      · rw [Prod.mk.injEq] at heq
        obtain ⟨rfl, rfl⟩ := heq
        have hnone : applyWrites rest f = none :=
          (applyWrites_eq_none_iff rest f).mpr hw1
        rw [hnone, if_pos rfl]
      · rw [(ih hrest).mpr hmem]

theorem applyWrites_perm {l l' : List (String × YVal)} (h : nodupKeys l)
    (hp : l'.Perm l) (f : String) :
    applyWrites l' f = applyWrites l f := by
  have h' : nodupKeys l' := by
    unfold nodupKeys at h ⊢
    exact ((hp.map Prod.fst).nodup_iff).mpr h
  cases ha : applyWrites l' f with
  | some v =>
    have := (applyWrites_eq_some_iff h' f v).mp ha
    exact ((applyWrites_eq_some_iff h f v).mpr (hp.mem_iff.mp this)).symm
  | none =>
    have := (applyWrites_eq_none_iff l' f).mp ha
    have hnl : f ∉ l.map Prod.fst := by
      intro hc
      exact this (((hp.map Prod.fst).mem_iff).mpr hc)
    exact ((applyWrites_eq_none_iff l f).mpr hnl).symm

theorem writeLoop_ok {l files : List (String × YVal)}
    (h : writeLoop l = (files, none)) : files = l := by
  induction l generalizing files with
  | nil =>
    cases h
    rfl
  | cons w rest ih =>
    unfold writeLoop at h
    by_cases hv : isValidFilename w.1
    · rw [if_neg (by simp [hv])] at h
      cases hr : writeLoop rest with
      | mk ws e =>
        rw [hr] at h
        injection h with ha hb
        subst hb
        rw [← ha, ih hr]
    · rw [if_pos (by simp [hv])] at h
      cases h

theorem writeManifests_ok {out : OutputDir} {name : String}
    {m : K8sManifests} {files : List (String × YVal)}
    (h : writeManifests out name m = (files, none)) :
    files = buildManifestFiles name m := by
  unfold writeManifests at h
  split at h
  · cases h
  · split at h
    · cases h
    · split at h
      · cases h
      · split at h
        · cases h
        · split at h
          · cases h
          · split at h
            · cases h
            · exact writeLoop_ok h

/-- C8: Writer determinism — a successful writeManifests run produces a
fixed files map with pairwise-distinct filenames, so however the Go map
iteration orders the file writes (any two permutations of the files,
modelling two runs on identical input and an empty target directory), the
resulting directory contents are byte-identical at every filename. -/
theorem c8_writer_determinism (out : OutputDir) (name : String)
    (m : K8sManifests) (files : List (String × YVal))
    (h : writeManifests out name m = (files, none))
    (order₁ order₂ : List (String × YVal))
    (h₁ : order₁.Perm files) (h₂ : order₂.Perm files) (f : String) :
    applyWrites order₁ f = applyWrites order₂ f := by
  have hf : files = buildManifestFiles name m := writeManifests_ok h
  have hnd : nodupKeys files := hf ▸ nodupKeys_buildManifestFiles name m
  rw [applyWrites_perm hnd h₁ f, applyWrites_perm hnd h₂ f]

/-- C8 witness: the determinism theorem applied to the webapp run, with
the two orders being the files map and its reversal. -/
theorem c8_writer_determinism_witness :
    applyWrites
      ((writeManifests goodDir "webapp"
        (okOr (convertTaskDefToK8s webappTaskDef))).1).reverse
      "webapp-configmap.yaml" =
    applyWrites
      ((writeManifests goodDir "webapp"
        (okOr (convertTaskDefToK8s webappTaskDef))).1)
      "webapp-configmap.yaml" :=
  c8_writer_determinism goodDir "webapp"
    (okOr (convertTaskDefToK8s webappTaskDef))
    ((writeManifests goodDir "webapp"
      (okOr (convertTaskDefToK8s webappTaskDef))).1)
    rfl _ _ (List.reverse_perm _) (List.Perm.refl _) "webapp-configmap.yaml"

/-- C9 counterexample: the claim says the base kustomization's resources
list contains the path of every written resource file; on a task whose
conversion carries two Services, the file services/web2-service.yaml is
written into base/ but its path is missing from the resources list
(the source appends a service path only for index 0). -/
theorem c9_kustomize_packager_counterexample :
    "services/web2-service.yaml"
      ∈ (createBaseKustomization [multiTaskDefInfo]).1.map Prod.fst ∧
    "services/web2-service.yaml"
      ∉ (createBaseKustomization [multiTaskDefInfo]).2.resources := by
  refine ⟨?_, ?_⟩ <;> decide

/-- C9 (amended): Kustomize Packager structure — for every non-empty list
of task definitions, base/ holds one manifest file per resource under
deployments/, services/, configmaps/, secrets/ and serviceaccounts/; the
base kustomization carries the common label managed-by: ecs2k8s and its
resources list contains the path of every written deployment, ConfigMap,
Secret and ServiceAccount file but, per task, only the FIRST Service's
path (further service files are written yet not referenced); and three
overlays are produced — dev with namespace development, staging with
staging, prod with production — each holding a namespace-and-label patch
per deployment and a kustomization referencing ../../base. -/
theorem c9_kustomize_packager (infos : List TaskDefInfo) (_h : infos ≠ []) :
    ((createBaseKustomization infos).2.commonLabels
      = [("managed-by", "ecs2k8s")]) ∧
    (∀ info ∈ infos,
      ("deployments/" ++ info.name ++ "-deployment.yaml")
        ∈ (createBaseKustomization infos).2.resources ∧
      ("deployments/" ++ info.name ++ "-deployment.yaml")
        ∈ (createBaseKustomization infos).1.map Prod.fst) ∧
    (∀ info ∈ infos, ∀ svc ∈ info.manifests.services,
      ("services/" ++ svc.name ++ "-service.yaml")
        ∈ (createBaseKustomization infos).1.map Prod.fst) ∧
    (∀ info ∈ infos, ∀ svc rest, info.manifests.services = svc :: rest →
      ("services/" ++ svc.name ++ "-service.yaml")
        ∈ (createBaseKustomization infos).2.resources) ∧
    (∀ info ∈ infos, ∀ p ∈ info.manifests.configMaps.enum,
      ("configmaps/" ++ info.name ++ "-configmap-" ++ toString p.1 ++ ".yaml")
        ∈ (createBaseKustomization infos).2.resources ∧
      ("configmaps/" ++ info.name ++ "-configmap-" ++ toString p.1 ++ ".yaml")
        ∈ (createBaseKustomization infos).1.map Prod.fst) ∧
    (∀ info ∈ infos, ∀ p ∈ info.manifests.secrets.enum,
      ("secrets/" ++ info.name ++ "-secret-" ++ toString p.1 ++ ".yaml")
        ∈ (createBaseKustomization infos).2.resources ∧
      ("secrets/" ++ info.name ++ "-secret-" ++ toString p.1 ++ ".yaml")
        ∈ (createBaseKustomization infos).1.map Prod.fst) ∧
    (∀ info ∈ infos, ∀ sa, info.manifests.serviceAccount = some sa →
      ("serviceaccounts/" ++ info.name ++ "-serviceaccount.yaml")
        ∈ (createBaseKustomization infos).2.resources ∧
      ("serviceaccounts/" ++ info.name ++ "-serviceaccount.yaml")
        ∈ (createBaseKustomization infos).1.map Prod.fst) ∧
    ((createKustomizeStructure infos).2.map
        (fun ov => (ov.overlayName, ov.namespaceName))
      = [("dev", "development"), ("staging", "staging"),
         ("prod", "production")]) ∧
    (∀ ov ∈ (createKustomizeStructure infos).2,
      ov.kustomization.bases = ["../../base"] ∧
      ov.kustomization.namespaceName = ov.namespaceName ∧
      ov.kustomization.commonLabels = [("environment", ov.overlayName)] ∧
      ∀ info ∈ infos,
        ("patches/" ++ info.name ++ "-namespace-patch.yaml",
          namespacePatchContent info.name ov.namespaceName ov.overlayName)
          ∈ ov.patchFiles ∧
        (info.name, "patches/" ++ info.name ++ "-namespace-patch.yaml")
          ∈ ov.kustomization.patches) := by
  refine ⟨rfl, ?_, ?_, ?_, ?_, ?_, ?_, rfl, ?_⟩
  · intro info hinfo
    constructor
    · exact List.mem_flatMap.mpr ⟨info, hinfo, by simp [baseTaskResources]⟩
    · refine List.mem_map.mpr
        ⟨("deployments/" ++ info.name ++ "-deployment.yaml",
          generateBaseDeployment info.name info),
         List.mem_flatMap.mpr ⟨info, hinfo, by simp [baseTaskFiles]⟩, rfl⟩
  · intro info hinfo svc hsvc
    refine List.mem_map.mpr
      ⟨("services/" ++ svc.name ++ "-service.yaml", marshalServiceYaml svc),
       List.mem_flatMap.mpr ⟨info, hinfo, ?_⟩, rfl⟩
    unfold baseTaskFiles
    simp only [List.mem_append]
    exact Or.inl (Or.inl (Or.inl (Or.inr
      (List.mem_map.mpr ⟨svc, hsvc, rfl⟩))))
  · intro info hinfo svc rest heq
    refine List.mem_flatMap.mpr ⟨info, hinfo, ?_⟩
    unfold baseTaskResources
    rw [heq]
    simp
  · intro info hinfo p hp
    constructor
    · refine List.mem_flatMap.mpr ⟨info, hinfo, ?_⟩
      unfold baseTaskResources
      simp only [List.mem_append]
      exact Or.inl (Or.inl (Or.inr (List.mem_map.mpr ⟨p, hp, rfl⟩)))
    · refine List.mem_map.mpr
        ⟨("configmaps/" ++ info.name ++ "-configmap-" ++ toString p.1 ++ ".yaml",
          marshalConfigMapYaml p.2),
         List.mem_flatMap.mpr ⟨info, hinfo, ?_⟩, rfl⟩
      unfold baseTaskFiles
      simp only [List.mem_append]
      exact Or.inl (Or.inl (Or.inr (List.mem_map.mpr ⟨p, hp, rfl⟩)))
  · intro info hinfo p hp
    constructor
    · refine List.mem_flatMap.mpr ⟨info, hinfo, ?_⟩
      unfold baseTaskResources
      simp only [List.mem_append]
      exact Or.inl (Or.inr (List.mem_map.mpr ⟨p, hp, rfl⟩))
    · refine List.mem_map.mpr
        ⟨("secrets/" ++ info.name ++ "-secret-" ++ toString p.1 ++ ".yaml",
          marshalSecretYaml p.2),
         List.mem_flatMap.mpr ⟨info, hinfo, ?_⟩, rfl⟩
      unfold baseTaskFiles
      simp only [List.mem_append]
      exact Or.inl (Or.inr (List.mem_map.mpr ⟨p, hp, rfl⟩))
  · intro info hinfo sa hsa
    constructor
    · refine List.mem_flatMap.mpr ⟨info, hinfo, ?_⟩
      unfold baseTaskResources
      rw [hsa]
      simp
    · refine List.mem_map.mpr
        ⟨("serviceaccounts/" ++ info.name ++ "-serviceaccount.yaml",
          marshalServiceAccountYaml sa),
         List.mem_flatMap.mpr ⟨info, hinfo, ?_⟩, rfl⟩
      unfold baseTaskFiles
      rw [hsa]
      simp
  · intro ov hov
    rcases List.mem_map.mp hov with ⟨pair, hpair, rfl⟩
    refine ⟨rfl, rfl, rfl, ?_⟩
    intro info hinfo
    exact ⟨List.mem_map.mpr ⟨info, hinfo, rfl⟩,
           List.mem_map.mpr ⟨info, hinfo, rfl⟩⟩

/-- C9 witness: the packager theorem applied to the singleton webapp task
list: the deployment path is listed, the three overlays carry their
namespaces, and the dev overlay holds the webapp patch. -/
theorem c9_kustomize_packager_witness :
    ("deployments/" ++ "webapp" ++ "-deployment.yaml")
      ∈ (createBaseKustomization [webappTaskDefInfo]).2.resources ∧
    ((createKustomizeStructure [webappTaskDefInfo]).2.map
        (fun ov => (ov.overlayName, ov.namespaceName))
      = [("dev", "development"), ("staging", "staging"),
         ("prod", "production")]) :=
  ⟨((c9_kustomize_packager [webappTaskDefInfo] (by simp)).2.1
      webappTaskDefInfo (List.mem_singleton.mpr rfl)).1,
   (c9_kustomize_packager [webappTaskDefInfo] (by simp)).2.2.2.2.2.2.2.1⟩

end Ecs2K8s
